import Mathlib

/-!
Verification of the APFS B-tree on-disk structures and the read-only node
decoder of `apfs-tools`.

The structures, flag constants and layout come from `btree.h`
(`nloc_t`, `btree_node_phys_t`, `btree_info_fixed_t`, `btree_info_t`,
`kvloc_t`, `kvoff_t`, the `BTREE_*` and `BTNODE_*` constants) and from
`src/apfs/string/object.h` (`get_obj_storage_type_string`,
`get_obj_type_flags_string`).  Multi-byte fields are little-endian; a
struct is embedded as a Lean structure of natural-number fields together
with an explicit little-endian serializer fixing offsets and widths.
-/

namespace Apfs

/-! Little-endian byte-level helpers -/

/-- Read `w` bytes little-endian starting at byte offset `off` of `b`
(missing bytes read as 0). -/
def readLE (b : List Nat) : Nat → Nat → Nat
  | _, 0 => 0
  | off, w + 1 => b.getD off 0 + 256 * readLE b (off + 1) w

/-- Serialize `v` as `w` little-endian bytes. -/
def le (w v : Nat) : List Nat := (List.range w).map fun i => v / 256 ^ i % 256

theorem le_length (w v : Nat) : (le w v).length = w := by
  simp [le]

/-! Constants from `btree.h` -/

/-- B-Tree flag `BTREE_UNIT64_KEYS` from `btree.h`. -/
def BTREE_UNIT64_KEYS : Nat := 0x00000001

/-- B-Tree flag `BTREE_SEQUENTIAL_INSERT` from `btree.h`. -/
def BTREE_SEQUENTIAL_INSERT : Nat := 0x00000002

/-- B-Tree flag `BTREE_ALLOW_GHOSTS` from `btree.h`. -/
def BTREE_ALLOW_GHOSTS : Nat := 0x00000004

/-- B-Tree flag `BTREE_EPHEMERAL` from `btree.h`. -/
def BTREE_EPHEMERAL : Nat := 0x00000008

/-- B-Tree flag `BTREE_PHYSICAL` from `btree.h`. -/
def BTREE_PHYSICAL : Nat := 0x00000010

/-- B-Tree flag `BTREE_NONPERSISTENT` from `btree.h`. -/
def BTREE_NONPERSISTENT : Nat := 0x00000020

/-- B-Tree flag `BTREE_KV_NONALIGNED` from `btree.h`. -/
def BTREE_KV_NONALIGNED : Nat := 0x00000040

/-- Every constant defined in the "B-Tree Flags" section of `btree.h`,
in source order. -/
def btreeFlagConstants : List Nat :=
  [BTREE_UNIT64_KEYS, BTREE_SEQUENTIAL_INSERT, BTREE_ALLOW_GHOSTS,
   BTREE_EPHEMERAL, BTREE_PHYSICAL, BTREE_NONPERSISTENT, BTREE_KV_NONALIGNED]

/-- Constant `BTREE_TOC_ENTRY_INCREMENT` from `btree.h`. -/
def BTREE_TOC_ENTRY_INCREMENT : Nat := 8

/-- Constant `BTREE_TOC_ENTRY_MAX_UNUSED` from `btree.h` (defined there as
`2 * BTREE_TOC_ENTRY_INCREMENT`). -/
def BTREE_TOC_ENTRY_MAX_UNUSED : Nat := 2 * BTREE_TOC_ENTRY_INCREMENT

/-- B-Tree node flag `BTNODE_ROOT` from `btree.h`. -/
def BTNODE_ROOT : Nat := 0x0001

/-- B-Tree node flag `BTNODE_LEAF` from `btree.h`. -/
def BTNODE_LEAF : Nat := 0x0002

/-- B-Tree node flag `BTNODE_FIXED_KV_SIZE` from `btree.h`. -/
def BTNODE_FIXED_KV_SIZE : Nat := 0x0004

/-- B-Tree node flag `BTNODE_CHECK_KOFF_INVAL` from `btree.h`. -/
def BTNODE_CHECK_KOFF_INVAL : Nat := 0x8000

/-- Every constant defined in the "B-Tree Node Flags" section of `btree.h`,
in source order. -/
def btnodeFlagConstants : List Nat :=
  [BTNODE_ROOT, BTNODE_LEAF, BTNODE_FIXED_KV_SIZE, BTNODE_CHECK_KOFF_INVAL]

/-- Constant `BTREE_NODE_SIZE_DEFAULT` from `btree.h`. -/
def BTREE_NODE_SIZE_DEFAULT : Nat := 4096

/-- Constant `BTREE_NODE_MIN_ENTRY_COUNT` from `btree.h`. -/
def BTREE_NODE_MIN_ENTRY_COUNT : Nat := 4

/-! Structures from `btree.h` -/

/-- Struct `nloc_t`: a location descriptor, a 16-bit offset and a 16-bit length. -/
structure nloc where
  off : Nat
  len : Nat
deriving DecidableEq

/-- Modelled from the spec: `obj_phys_t` is declared in `object.h`, which is
not part of the provided sources; the spec gives the common object header as
checksum(8) + oid(8) + xid(8) + type(4) + subtype(4), 32 bytes in all. -/
structure obj_phys where
  o_cksum : Nat
  o_oid : Nat
  o_xid : Nat
  o_type : Nat
  o_subtype : Nat
deriving DecidableEq

/-- Struct `btree_node_phys_t` from `btree.h`. -/
structure btree_node_phys where
  btn_o : obj_phys
  btn_flags : Nat
  btn_level : Nat
  btn_nkeys : Nat
  btn_table_space : nloc
  btn_free_space : nloc
  btn_key_free_list : nloc
  btn_val_free_list : nloc
  btn_data : List Nat
deriving DecidableEq

/-- Struct `btree_info_fixed_t` from `btree.h`. -/
structure btree_info_fixed where
  bt_flags : Nat
  bt_node_size : Nat
  bt_key_size : Nat
  bt_val_size : Nat
deriving DecidableEq

/-- Struct `btree_info_t` from `btree.h`. -/
structure btree_info where
  bt_fixed : btree_info_fixed
  bt_longest_key : Nat
  bt_longest_val : Nat
  bt_key_count : Nat
  bt_node_count : Nat
deriving DecidableEq

/-- Struct `kvloc_t` from `btree.h`: a variable-size table-of-contents entry. -/
structure kvloc where
  k : nloc
  v : nloc
deriving DecidableEq

/-- Struct `kvoff_t` from `btree.h`: a fixed-size table-of-contents entry. -/
structure kvoff where
  k : Nat
  v : Nat
deriving DecidableEq

/-! Little-endian serializers fixing each struct's byte layout -/

/-- Byte layout of `nloc_t`: `off` then `len`, 2 bytes each. -/
def serNloc (l : nloc) : List Nat := le 2 l.off ++ le 2 l.len

/-- Byte layout of the 32-byte object header. -/
def serObjPhys (o : obj_phys) : List Nat :=
  le 8 o.o_cksum ++ le 8 o.o_oid ++ le 8 o.o_xid ++ le 4 o.o_type ++ le 4 o.o_subtype

/-- Byte layout of `btree_node_phys_t` (fields in declaration order, then the
flexible `btn_data` array). -/
def serBtreeNodePhys (n : btree_node_phys) : List Nat :=
  serObjPhys n.btn_o ++ le 2 n.btn_flags ++ le 2 n.btn_level ++ le 4 n.btn_nkeys ++
  serNloc n.btn_table_space ++ serNloc n.btn_free_space ++ serNloc n.btn_key_free_list ++
  serNloc n.btn_val_free_list ++ n.btn_data

/-- Byte layout of `btree_info_fixed_t`. -/
def serBtreeInfoFixed (i : btree_info_fixed) : List Nat :=
  le 4 i.bt_flags ++ le 4 i.bt_node_size ++ le 4 i.bt_key_size ++ le 4 i.bt_val_size

/-- Byte layout of `btree_info_t`. -/
def serBtreeInfo (i : btree_info) : List Nat :=
  serBtreeInfoFixed i.bt_fixed ++ le 4 i.bt_longest_key ++ le 4 i.bt_longest_val ++
  le 8 i.bt_key_count ++ le 8 i.bt_node_count

/-- Byte layout of `kvloc_t`: two location descriptors, key then value. -/
def serKvloc (x : kvloc) : List Nat := serNloc x.k ++ serNloc x.v

/-- Byte layout of `kvoff_t`: two bare 16-bit offsets, key then value. -/
def serKvoff (x : kvoff) : List Nat := le 2 x.k ++ le 2 x.v

/-- Size in bytes of one table-of-contents entry, as read by the node
decoder: 4 bytes in fixed key/value-size mode, 8 bytes otherwise. -/
def tocEntrySize (fixed : Bool) : Nat := if fixed then 4 else 8

/-- Extracting a middle segment of a concatenation by offset and width. -/
theorem extract_seg (p q r : List Nat) (a w : Nat) (ha : p.length = a) (hw : q.length = w) :
    ((p ++ (q ++ r)).drop a).take w = q := by
  subst ha; subst hw
  rw [List.drop_left, List.take_left]

/-- The three object-space addressing modes of a tree. -/
inductive SpaceMode where
  | ephemeral
  | physical
  | virtual
deriving DecidableEq

/-- Modelled from the spec: the Navigator's ephemeral/physical/virtual
space selection over the tree-level flag word (the Navigator itself is not
in the provided sources).  Per the spec there are "three addressing modes";
`btree.h` defines flag bits only for ephemeral and physical, so virtual
space is what remains when neither bit is set. -/
def treeSpaceMode (flags : Nat) : SpaceMode :=
  if flags &&& BTREE_EPHEMERAL ≠ 0 then SpaceMode.ephemeral
  else if flags &&& BTREE_PHYSICAL ≠ 0 then SpaceMode.physical
  else SpaceMode.virtual

/-- C2: the node flags field assigns exactly bit 0 (0x0001) to root,
bit 1 (0x0002) to leaf, bit 2 (0x0004) to fixed key/value size and
bit 15 (0x8000) to check-key-offset-for-overflow; the list of every
node-flag constant defined in `btree.h` is exactly these four. -/
theorem btnode_flag_bits :
    BTNODE_ROOT = 2 ^ 0 ∧ BTNODE_LEAF = 2 ^ 1 ∧ BTNODE_FIXED_KV_SIZE = 2 ^ 2 ∧
    BTNODE_CHECK_KOFF_INVAL = 2 ^ 15 ∧
    btnodeFlagConstants = [0x0001, 0x0002, 0x0004, 0x8000] := by
  decide

/-- C3: the tree-level flag word defines exactly the seven bits
unit64-keys 0x01, sequential-insert 0x02, allow-ghosts 0x04,
ephemeral 0x08, physical 0x10, non-persistent 0x20, non-aligned-kv 0x40
(the list of every tree-flag constant in `btree.h` is exactly these, so
there is no dedicated virtual flag bit), and the space selector reads
virtual exactly when neither the ephemeral bit nor the physical bit
is set. -/
theorem btree_flag_bits :
    BTREE_UNIT64_KEYS = 0x01 ∧ BTREE_SEQUENTIAL_INSERT = 0x02 ∧
    BTREE_ALLOW_GHOSTS = 0x04 ∧ BTREE_NONPERSISTENT = 0x20 ∧
    BTREE_KV_NONALIGNED = 0x40 ∧ BTREE_EPHEMERAL = 0x08 ∧ BTREE_PHYSICAL = 0x10 ∧
    btreeFlagConstants = [0x01, 0x02, 0x04, 0x08, 0x10, 0x20, 0x40] ∧
    (∀ flags : Nat, treeSpaceMode flags = SpaceMode.virtual ↔
      (flags &&& BTREE_EPHEMERAL = 0 ∧ flags &&& BTREE_PHYSICAL = 0)) := by
  refine ⟨rfl, rfl, rfl, rfl, rfl, rfl, rfl, rfl, ?_⟩
  intro flags
  unfold treeSpaceMode
  split_ifs with h1 h2
  · exact iff_of_false (by decide) fun h => h1 h.1
  · exact iff_of_false (by decide) fun h => h2 h.2
  · exact iff_of_true rfl ⟨not_ne_iff.mp h1, not_ne_iff.mp h2⟩

/-- C3 witness: a flag word with only unit64-keys and non-aligned-kv set
selects virtual space. -/
theorem btree_flag_bits_witness : treeSpaceMode 0x41 = SpaceMode.virtual :=
  (btree_flag_bits.2.2.2.2.2.2.2.2 0x41).mpr (by decide)

/-- C7: the B-tree constants of `btree.h`: default node size 4096, minimum
entries per node 4, table-of-contents growth increment 8, maximum unused
table-of-contents slack 16 = twice the increment. -/
theorem btree_constant_values :
    BTREE_NODE_SIZE_DEFAULT = 4096 ∧ BTREE_NODE_MIN_ENTRY_COUNT = 4 ∧
    BTREE_TOC_ENTRY_INCREMENT = 8 ∧ BTREE_TOC_ENTRY_MAX_UNUSED = 16 ∧
    BTREE_TOC_ENTRY_MAX_UNUSED = 2 * BTREE_TOC_ENTRY_INCREMENT := by
  decide

theorem serNloc_length (l : nloc) : (serNloc l).length = 4 := by
  simp [serNloc, le_length]

theorem serObjPhys_length (o : obj_phys) : (serObjPhys o).length = 32 := by
  simp [serObjPhys, le_length]

/-- C4: a serialized B-tree node is the 32-byte object header, then the
16-bit flags at offset 32, the 16-bit level at 34, the 32-bit key count at
36, then exactly four location descriptors (table space 40, free space 44,
key free list 48, value free list 52), each a 16-bit offset then a 16-bit
length, with the variable-length data area immediately after at 56. -/
theorem btree_node_phys_layout (n : btree_node_phys) :
    (serObjPhys n.btn_o).length = 32 ∧
    (serBtreeNodePhys n).take 32 = serObjPhys n.btn_o ∧
    ((serBtreeNodePhys n).drop 32).take 2 = le 2 n.btn_flags ∧
    ((serBtreeNodePhys n).drop 34).take 2 = le 2 n.btn_level ∧
    ((serBtreeNodePhys n).drop 36).take 4 = le 4 n.btn_nkeys ∧
    ((serBtreeNodePhys n).drop 40).take 4 = serNloc n.btn_table_space ∧
    ((serBtreeNodePhys n).drop 44).take 4 = serNloc n.btn_free_space ∧
    ((serBtreeNodePhys n).drop 48).take 4 = serNloc n.btn_key_free_list ∧
    ((serBtreeNodePhys n).drop 52).take 4 = serNloc n.btn_val_free_list ∧
    (serBtreeNodePhys n).drop 56 = n.btn_data ∧
    (∀ l : nloc, serNloc l = le 2 l.off ++ le 2 l.len ∧ (serNloc l).length = 4) := by
  refine ⟨serObjPhys_length _, ?_, ?_, ?_, ?_, ?_, ?_, ?_, ?_, ?_,
    fun l => ⟨rfl, serNloc_length l⟩⟩
  · have e : serBtreeNodePhys n = serObjPhys n.btn_o ++
        (le 2 n.btn_flags ++ (le 2 n.btn_level ++ (le 4 n.btn_nkeys ++
        (serNloc n.btn_table_space ++ (serNloc n.btn_free_space ++
        (serNloc n.btn_key_free_list ++ (serNloc n.btn_val_free_list ++ n.btn_data))))))) := by
      simp [serBtreeNodePhys, List.append_assoc]
    rw [e, List.take_left' (serObjPhys_length n.btn_o)]
  · have e : serBtreeNodePhys n = serObjPhys n.btn_o ++
        (le 2 n.btn_flags ++ (le 2 n.btn_level ++ (le 4 n.btn_nkeys ++
        (serNloc n.btn_table_space ++ (serNloc n.btn_free_space ++
        (serNloc n.btn_key_free_list ++ (serNloc n.btn_val_free_list ++ n.btn_data))))))) := by
      simp [serBtreeNodePhys, List.append_assoc]
    rw [e]
    exact extract_seg _ _ _ 32 2 (serObjPhys_length _) (le_length 2 _)
  · have e : serBtreeNodePhys n = (serObjPhys n.btn_o ++ le 2 n.btn_flags) ++
        (le 2 n.btn_level ++ (le 4 n.btn_nkeys ++
        (serNloc n.btn_table_space ++ (serNloc n.btn_free_space ++
        (serNloc n.btn_key_free_list ++ (serNloc n.btn_val_free_list ++ n.btn_data)))))) := by
      simp [serBtreeNodePhys, List.append_assoc]
    rw [e]
    exact extract_seg _ _ _ 34 2 (by simp [serObjPhys_length, le_length]) (le_length 2 _)
  · have e : serBtreeNodePhys n =
        (serObjPhys n.btn_o ++ le 2 n.btn_flags ++ le 2 n.btn_level) ++
        (le 4 n.btn_nkeys ++ (serNloc n.btn_table_space ++ (serNloc n.btn_free_space ++
        (serNloc n.btn_key_free_list ++ (serNloc n.btn_val_free_list ++ n.btn_data))))) := by
      simp [serBtreeNodePhys, List.append_assoc]
    rw [e]
    exact extract_seg _ _ _ 36 4 (by simp [serObjPhys_length, le_length]) (le_length 4 _)
  · have e : serBtreeNodePhys n =
        (serObjPhys n.btn_o ++ le 2 n.btn_flags ++ le 2 n.btn_level ++ le 4 n.btn_nkeys) ++
        (serNloc n.btn_table_space ++ (serNloc n.btn_free_space ++
        (serNloc n.btn_key_free_list ++ (serNloc n.btn_val_free_list ++ n.btn_data)))) := by
      simp [serBtreeNodePhys, List.append_assoc]
    rw [e]
    exact extract_seg _ _ _ 40 4 (by simp [serObjPhys_length, le_length]) (serNloc_length _)
  · have e : serBtreeNodePhys n =
        (serObjPhys n.btn_o ++ le 2 n.btn_flags ++ le 2 n.btn_level ++ le 4 n.btn_nkeys ++
         serNloc n.btn_table_space) ++
        (serNloc n.btn_free_space ++
        (serNloc n.btn_key_free_list ++ (serNloc n.btn_val_free_list ++ n.btn_data))) := by
      simp [serBtreeNodePhys, List.append_assoc]
    rw [e]
    exact extract_seg _ _ _ 44 4
      (by simp [serObjPhys_length, serNloc_length, le_length]) (serNloc_length _)
  · have e : serBtreeNodePhys n =
        (serObjPhys n.btn_o ++ le 2 n.btn_flags ++ le 2 n.btn_level ++ le 4 n.btn_nkeys ++
         serNloc n.btn_table_space ++ serNloc n.btn_free_space) ++
        (serNloc n.btn_key_free_list ++ (serNloc n.btn_val_free_list ++ n.btn_data)) := by
      simp [serBtreeNodePhys, List.append_assoc]
    rw [e]
    exact extract_seg _ _ _ 48 4
      (by simp [serObjPhys_length, serNloc_length, le_length]) (serNloc_length _)
  · have e : serBtreeNodePhys n =
        (serObjPhys n.btn_o ++ le 2 n.btn_flags ++ le 2 n.btn_level ++ le 4 n.btn_nkeys ++
         serNloc n.btn_table_space ++ serNloc n.btn_free_space ++
         serNloc n.btn_key_free_list) ++
        (serNloc n.btn_val_free_list ++ n.btn_data) := by
      simp [serBtreeNodePhys, List.append_assoc]
    rw [e]
    exact extract_seg _ _ _ 52 4
      (by simp [serObjPhys_length, serNloc_length, le_length]) (serNloc_length _)
  · have e : serBtreeNodePhys n =
        (serObjPhys n.btn_o ++ le 2 n.btn_flags ++ le 2 n.btn_level ++ le 4 n.btn_nkeys ++
         serNloc n.btn_table_space ++ serNloc n.btn_free_space ++
         serNloc n.btn_key_free_list ++ serNloc n.btn_val_free_list) ++ n.btn_data := by
      simp [serBtreeNodePhys, List.append_assoc]
    have hp : (serObjPhys n.btn_o ++ le 2 n.btn_flags ++ le 2 n.btn_level ++ le 4 n.btn_nkeys ++
         serNloc n.btn_table_space ++ serNloc n.btn_free_space ++
         serNloc n.btn_key_free_list ++ serNloc n.btn_val_free_list).length = 56 := by
      simp [serObjPhys_length, serNloc_length, le_length]
    rw [e, List.drop_left' hp]

/-- C5: a table-of-contents entry has exactly two encodings: `kvloc_t`,
two full location descriptors (8 bytes), used in variable mode, and
`kvoff_t`, two bare 16-bit offsets (4 bytes), used in fixed mode — the
fixed encoding is exactly half the size of the variable one, and the node
decoder selects the entry size by the fixed key/value-size flag. -/
theorem toc_entry_encodings (e : kvloc) (f : kvoff) :
    serKvloc e = serNloc e.k ++ serNloc e.v ∧
    serKvoff f = le 2 f.k ++ le 2 f.v ∧
    (serKvloc e).length = 8 ∧ (serKvoff f).length = 4 ∧
    tocEntrySize false = (serKvloc e).length ∧
    tocEntrySize true = (serKvoff f).length ∧
    2 * (serKvoff f).length = (serKvloc e).length := by
  have h8 : (serKvloc e).length = 8 := by simp [serKvloc, serNloc_length]
  have h4 : (serKvoff f).length = 4 := by simp [serKvoff, le_length]
  exact ⟨rfl, rfl, h8, h4, by simp [tocEntrySize, h8], by simp [tocEntrySize, h4],
    by rw [h8, h4]⟩

/-- C6: the root-only trailer is, in order, the four 32-bit fixed fields
(tree flags, node size, key size, value size — 16 bytes), then the 32-bit
longest-key and longest-value counters, then the 64-bit total key count
and total node count, 40 bytes in all. -/
theorem btree_info_layout (i : btree_info) :
    (serBtreeInfo i).length = 40 ∧
    (serBtreeInfoFixed i.bt_fixed).length = 16 ∧
    (serBtreeInfo i).take 4 = le 4 i.bt_fixed.bt_flags ∧
    ((serBtreeInfo i).drop 4).take 4 = le 4 i.bt_fixed.bt_node_size ∧
    ((serBtreeInfo i).drop 8).take 4 = le 4 i.bt_fixed.bt_key_size ∧
    ((serBtreeInfo i).drop 12).take 4 = le 4 i.bt_fixed.bt_val_size ∧
    ((serBtreeInfo i).drop 16).take 4 = le 4 i.bt_longest_key ∧
    ((serBtreeInfo i).drop 20).take 4 = le 4 i.bt_longest_val ∧
    ((serBtreeInfo i).drop 24).take 8 = le 8 i.bt_key_count ∧
    (serBtreeInfo i).drop 32 = le 8 i.bt_node_count := by
  refine ⟨?_, ?_, ?_, ?_, ?_, ?_, ?_, ?_, ?_, ?_⟩
  · simp [serBtreeInfo, serBtreeInfoFixed, le_length]
  · simp [serBtreeInfoFixed, le_length]
  · have e : serBtreeInfo i = le 4 i.bt_fixed.bt_flags ++
        (le 4 i.bt_fixed.bt_node_size ++ (le 4 i.bt_fixed.bt_key_size ++
        (le 4 i.bt_fixed.bt_val_size ++ (le 4 i.bt_longest_key ++
        (le 4 i.bt_longest_val ++ (le 8 i.bt_key_count ++ le 8 i.bt_node_count)))))) := by
      simp [serBtreeInfo, serBtreeInfoFixed, List.append_assoc]
    rw [e, List.take_left' (le_length 4 i.bt_fixed.bt_flags)]
  · have e : serBtreeInfo i = le 4 i.bt_fixed.bt_flags ++
        (le 4 i.bt_fixed.bt_node_size ++ (le 4 i.bt_fixed.bt_key_size ++
        (le 4 i.bt_fixed.bt_val_size ++ (le 4 i.bt_longest_key ++
        (le 4 i.bt_longest_val ++ (le 8 i.bt_key_count ++ le 8 i.bt_node_count)))))) := by
      simp [serBtreeInfo, serBtreeInfoFixed, List.append_assoc]
    rw [e]
    exact extract_seg _ _ _ 4 4 (le_length 4 _) (le_length 4 _)
  · have e : serBtreeInfo i =
        (le 4 i.bt_fixed.bt_flags ++ le 4 i.bt_fixed.bt_node_size) ++
        (le 4 i.bt_fixed.bt_key_size ++ (le 4 i.bt_fixed.bt_val_size ++
        (le 4 i.bt_longest_key ++ (le 4 i.bt_longest_val ++
        (le 8 i.bt_key_count ++ le 8 i.bt_node_count))))) := by
      simp [serBtreeInfo, serBtreeInfoFixed, List.append_assoc]
    rw [e]
    exact extract_seg _ _ _ 8 4 (by simp [le_length]) (le_length 4 _)
  · have e : serBtreeInfo i =
        (le 4 i.bt_fixed.bt_flags ++ le 4 i.bt_fixed.bt_node_size ++
         le 4 i.bt_fixed.bt_key_size) ++
        (le 4 i.bt_fixed.bt_val_size ++ (le 4 i.bt_longest_key ++
        (le 4 i.bt_longest_val ++ (le 8 i.bt_key_count ++ le 8 i.bt_node_count)))) := by
      simp [serBtreeInfo, serBtreeInfoFixed, List.append_assoc]
    rw [e]
    exact extract_seg _ _ _ 12 4 (by simp [le_length]) (le_length 4 _)
  · have e : serBtreeInfo i =
        (le 4 i.bt_fixed.bt_flags ++ le 4 i.bt_fixed.bt_node_size ++
         le 4 i.bt_fixed.bt_key_size ++ le 4 i.bt_fixed.bt_val_size) ++
        (le 4 i.bt_longest_key ++ (le 4 i.bt_longest_val ++
        (le 8 i.bt_key_count ++ le 8 i.bt_node_count))) := by
      simp [serBtreeInfo, serBtreeInfoFixed, List.append_assoc]
    rw [e]
    exact extract_seg _ _ _ 16 4 (by simp [le_length]) (le_length 4 _)
  · have e : serBtreeInfo i =
        (le 4 i.bt_fixed.bt_flags ++ le 4 i.bt_fixed.bt_node_size ++
         le 4 i.bt_fixed.bt_key_size ++ le 4 i.bt_fixed.bt_val_size ++
         le 4 i.bt_longest_key) ++
        (le 4 i.bt_longest_val ++ (le 8 i.bt_key_count ++ le 8 i.bt_node_count)) := by
      simp [serBtreeInfo, serBtreeInfoFixed, List.append_assoc]
    rw [e]
    exact extract_seg _ _ _ 20 4 (by simp [le_length]) (le_length 4 _)
  · have e : serBtreeInfo i =
        (le 4 i.bt_fixed.bt_flags ++ le 4 i.bt_fixed.bt_node_size ++
         le 4 i.bt_fixed.bt_key_size ++ le 4 i.bt_fixed.bt_val_size ++
         le 4 i.bt_longest_key ++ le 4 i.bt_longest_val) ++
        (le 8 i.bt_key_count ++ le 8 i.bt_node_count) := by
      simp [serBtreeInfo, serBtreeInfoFixed, List.append_assoc]
    rw [e]
    exact extract_seg _ _ _ 24 8 (by simp [le_length]) (le_length 8 _)
  · have e : serBtreeInfo i =
        (le 4 i.bt_fixed.bt_flags ++ le 4 i.bt_fixed.bt_node_size ++
         le 4 i.bt_fixed.bt_key_size ++ le 4 i.bt_fixed.bt_val_size ++
         le 4 i.bt_longest_key ++ le 4 i.bt_longest_val ++ le 8 i.bt_key_count) ++
        le 8 i.bt_node_count := by
      simp [serBtreeInfo, serBtreeInfoFixed, List.append_assoc]
    have hp : (le 4 i.bt_fixed.bt_flags ++ le 4 i.bt_fixed.bt_node_size ++
         le 4 i.bt_fixed.bt_key_size ++ le 4 i.bt_fixed.bt_val_size ++
         le 4 i.bt_longest_key ++ le 4 i.bt_longest_val ++ le 8 i.bt_key_count).length = 32 := by
      simp [le_length]
    rw [e, List.drop_left' hp]

/-! String helpers from `src/apfs/string/object.h`

The `OBJ_*` constants are declared in `struct/object.h`, which is not among
the provided sources, so the functions take them as parameters; the control
flow below is translated from the C bodies, which never depend on the
constants' concrete values. -/

/-- Function `get_obj_storage_type_string`: switch on `o_type & OBJ_STORAGETYPE_MASK`
against `OBJ_VIRTUAL`, `OBJ_EPHEMERAL`, `OBJ_PHYSICAL`, defaulting to
`"(invalid type)"`. -/
def get_obj_storage_type_string (mask oVirtual oEphemeral oPhysical : Nat)
    (obj : obj_phys) : String :=
  if obj.o_type &&& mask = oVirtual then "Virtual"
  else if obj.o_type &&& mask = oEphemeral then "Ephemeral"
  else if obj.o_type &&& mask = oPhysical then "Physical"
  else "(invalid type)"

/-- Function `get_obj_type_flags_string`: walk the three type-flag constants in order
and append the name of each set flag, comma-separated; if none is set the
result is `"(none)"`. -/
def get_obj_type_flags_string (oNoheader oEncrypted oNonpersistent : Nat)
    (obj : obj_phys) : String :=
  let flag_constants : List Nat := [oNoheader, oEncrypted, oNonpersistent]
  let flag_strings : List String :=
    ["No-header", "Encrypted",
     "Non-persistent (should never appear on disk --- if it does, file a bug against the APFS implementation that created this object)"]
  let result := (flag_constants.zip flag_strings).foldl
    (fun acc p =>
      if obj.o_type &&& p.1 ≠ 0 then
        (if acc = "" then p.2 else acc ++ ", " ++ p.2)
      else acc) ""
  if result = "" then "(none)" else result

/-- The spec-side reading of `get_obj_type_flags_string`: the names of
exactly the set flags, in the fixed order No-header, Encrypted,
Non-persistent, joined by `", "`, or `"(none)"` when no flag is set. -/
def renderTypeFlags (noheader encrypted nonpersistent : Bool) : String :=
  let names :=
    (if noheader then ["No-header"] else []) ++
    (if encrypted then ["Encrypted"] else []) ++
    (if nonpersistent then
      ["Non-persistent (should never appear on disk --- if it does, file a bug against the APFS implementation that created this object)"]
     else [])
  if names = [] then "(none)" else String.intercalate ", " names

/-- C9: `get_obj_storage_type_string` is total — for every object it returns
one of the four fixed strings — and its result depends only on
`o_type & OBJ_STORAGETYPE_MASK`. -/
theorem storage_type_string_total (mask oV oE oP : Nat) (obj obj' : obj_phys) :
    get_obj_storage_type_string mask oV oE oP obj ∈
      ["Virtual", "Ephemeral", "Physical", "(invalid type)"] ∧
    (obj.o_type &&& mask = obj'.o_type &&& mask →
      get_obj_storage_type_string mask oV oE oP obj =
      get_obj_storage_type_string mask oV oE oP obj') := by
  constructor
  · unfold get_obj_storage_type_string
    split_ifs <;> simp
  · intro h
    unfold get_obj_storage_type_string
    rw [h]

/-- C9 witness: with the published APFS constant values, a physical object
map header renders as one of the four strings, and two objects agreeing on
the storage-type bits render identically. -/
theorem storage_type_string_total_witness :
    get_obj_storage_type_string 0xc0000000 0x00000000 0x80000000 0x40000000
      ⟨0, 1025, 7, 0x4000000b, 0⟩ ∈ ["Virtual", "Ephemeral", "Physical", "(invalid type)"] ∧
    get_obj_storage_type_string 0xc0000000 0x00000000 0x80000000 0x40000000
      ⟨0, 1025, 7, 0x4000000b, 0⟩ =
    get_obj_storage_type_string 0xc0000000 0x00000000 0x80000000 0x40000000
      ⟨0, 2048, 9, 0x40000002, 0⟩ :=
  ⟨(storage_type_string_total 0xc0000000 0x00000000 0x80000000 0x40000000
      ⟨0, 1025, 7, 0x4000000b, 0⟩ ⟨0, 2048, 9, 0x40000002, 0⟩).1,
   (storage_type_string_total 0xc0000000 0x00000000 0x80000000 0x40000000
      ⟨0, 1025, 7, 0x4000000b, 0⟩ ⟨0, 2048, 9, 0x40000002, 0⟩).2 (by decide)⟩

/-- C10: `get_obj_type_flags_string` returns exactly the names of the set
type flags, joined by `", "` in the fixed order No-header, Encrypted,
Non-persistent — `"(none)"` when no flag is set — and the result depends on
`o_type` only through the three flag tests. -/
theorem type_flags_string_spec (f1 f2 f3 : Nat) (obj : obj_phys) :
    get_obj_type_flags_string f1 f2 f3 obj =
      renderTypeFlags (decide (obj.o_type &&& f1 ≠ 0)) (decide (obj.o_type &&& f2 ≠ 0))
        (decide (obj.o_type &&& f3 ≠ 0)) := by
  by_cases h1 : obj.o_type &&& f1 = 0 <;> by_cases h2 : obj.o_type &&& f2 = 0 <;>
    by_cases h3 : obj.o_type &&& f3 = 0 <;>
    simp only [get_obj_type_flags_string, renderTypeFlags, h1, h2, h3, List.zip, List.zipWith,
      List.foldl, ne_eq, decide_not, if_true, if_false, not_true_eq_false, not_false_eq_true,
      ite_true, ite_false, decide_True, decide_False, Bool.not_true, Bool.not_false] <;>
    rfl

/-! Node Decoder.

The Node Decoder itself is not among the provided sources — `btree.h` only
declares the structures it reads — so the decoder below is modelled from the
spec (§4.2 `parse`, §3 data model, §7 error taxonomy), over the structures
of `btree.h`. -/

/-- Modelled from the spec: the §7 error taxonomy; the decoder itself uses
`ChecksumMismatch` and `MalformedNode`. -/
inductive Err where
  | ChecksumMismatch
  | MalformedNode
  | MalformedTree
  | NotFound
  | CorruptMapping
  | UnsupportedKeySpace
deriving DecidableEq

instance {ε α : Type} [DecidableEq ε] [DecidableEq α] : DecidableEq (Except ε α) := fun x y =>
  match x, y with
  | Except.ok a, Except.ok b =>
    if h : a = b then isTrue (by rw [h]) else isFalse fun hc => h (by injection hc)
  | Except.error a, Except.error b =>
    if h : a = b then isTrue (by rw [h]) else isFalse fun hc => h (by injection hc)
  | Except.ok _, Except.error _ => isFalse fun hc => Except.noConfusion hc
  | Except.error _, Except.ok _ => isFalse fun hc => Except.noConfusion hc

/-- Modelled from the spec: the tree-wide configuration threaded explicitly
into each operation (§9) — the injected key comparator, whether ghost
entries are allowed, and the fixed key/value sizes for fixed-mode trees. -/
structure BtConfig where
  cmp : List Nat → List Nat → Int
  allowGhosts : Bool
  fixedKeySize : Nat
  fixedValSize : Nat

/-- Modelled from the spec: the decoded-node view exposed by `parse`
(§4.2 step 5): flags, level, key count and the ordered entry table, plus
the root-only tree-info trailer when present. -/
structure BtNode where
  flags : Nat
  level : Nat
  nkeys : Nat
  entries : List (List Nat × List Nat)
  info : Option btree_info
deriving DecidableEq, Inhabited

/-- Modelled from the spec: the checksum algorithm is not among the provided
sources; the spec only requires a 64-bit checksum over the block's bytes
after the checksum field that detects corruption.  It is modelled as a
64-bit position-weighted byte sum which, like the real Fletcher-style
checksum, changes whenever any single byte of the covered payload
changes. -/
def weightedSum : Nat → List Nat → Nat
  | _, [] => 0
  | i, x :: xs => x * 2 ^ (8 * (i % 8)) + weightedSum (i + 1) xs

/-- The 64-bit block checksum over a payload. -/
def cksum (payload : List Nat) : Nat := weightedSum 0 payload % 2 ^ 64

/-- The `l` bytes of `b` starting at offset `s`. -/
def sliceAt (b : List Nat) (s l : Nat) : List Nat := (b.drop s).take l

/-- Read an `nloc_t` at byte offset `o`. -/
def nlocAt (b : List Nat) (o : Nat) : nloc := ⟨readLE b o 2, readLE b (o + 2) 2⟩

/-- The ordering the decoder admits between two consecutive keys: strictly
increasing under the comparator, equality allowed only when the tree allows
ghost entries. -/
def adjOrdered (cfg : BtConfig) (a c : List Nat) : Prop :=
  cfg.cmp a c < 0 ∨ (cfg.cmp a c = 0 ∧ cfg.allowGhosts = true)

instance (cfg : BtConfig) (a c : List Nat) : Decidable (adjOrdered cfg a c) :=
  inferInstanceAs (Decidable (cfg.cmp a c < 0 ∨ (cfg.cmp a c = 0 ∧ cfg.allowGhosts = true)))

/-- A location descriptor lies inside the node's data area (which starts at
byte 56 and ends at `dataEnd`). -/
def locInBounds (dataEnd : Nat) (l : nloc) : Prop := 56 + l.off + l.len ≤ dataEnd

instance (dataEnd : Nat) (l : nloc) : Decidable (locInBounds dataEnd l) :=
  inferInstanceAs (Decidable (56 + l.off + l.len ≤ dataEnd))

/-- Two location descriptors describe non-overlapping regions. -/
def regionsDisjoint (x y : nloc) : Prop := x.off + x.len ≤ y.off ∨ y.off + y.len ≤ x.off

instance (x y : nloc) : Decidable (regionsDisjoint x y) :=
  inferInstanceAs (Decidable (x.off + x.len ≤ y.off ∨ y.off + y.len ≤ x.off))

/-- Read table-of-contents entry `i` as key/value location descriptors: a
`kvloc_t` in variable mode, a `kvoff_t` (lengths from the tree config) in
fixed mode. -/
def readTocEntry (cfg : BtConfig) (b : List Nat) (fixed : Bool) (tocBase i : Nat) :
    nloc × nloc :=
  let base := tocBase + i * tocEntrySize fixed
  if fixed then
    (⟨readLE b base 2, cfg.fixedKeySize⟩, ⟨readLE b (base + 2) 2, cfg.fixedValSize⟩)
  else
    (⟨readLE b base 2, readLE b (base + 2) 2⟩, ⟨readLE b (base + 4) 2, readLE b (base + 6) 2⟩)

/-- An entry's key range (forward from the start of key storage) and value
range (backward from the end of the data area) lie inside the data area. -/
def entryInBounds (keyStart dataEnd : Nat) (e : nloc × nloc) : Prop :=
  keyStart + e.1.off + e.1.len ≤ dataEnd ∧ 56 + e.2.off ≤ dataEnd ∧ e.2.len ≤ e.2.off

instance (keyStart dataEnd : Nat) (e : nloc × nloc) :
    Decidable (entryInBounds keyStart dataEnd e) :=
  inferInstanceAs
    (Decidable (keyStart + e.1.off + e.1.len ≤ dataEnd ∧ 56 + e.2.off ≤ dataEnd ∧
      e.2.len ≤ e.2.off))

/-- The decoder's executable ordering check over the decoded key sequence:
every consecutive pair is admissible under `adjOrdered`. -/
def keysOrderedB (cfg : BtConfig) : List (List Nat) → Bool
  | [] => true
  | [_] => true
  | a :: c :: rest => decide (adjOrdered cfg a c) && keysOrderedB cfg (c :: rest)

theorem keysOrderedB_iff (cfg : BtConfig) :
    ∀ l, keysOrderedB cfg l = true ↔ List.Chain' (adjOrdered cfg) l := by
  intro l
  induction l with
  | nil => simp [keysOrderedB]
  | cons a t ih =>
    cases t with
    | nil => simp [keysOrderedB]
    | cons c r =>
      rw [List.chain'_cons, ← ih]
      simp [keysOrderedB]

/-- Resolve an entry's byte views per the bidirectional-packing rule: keys
grow forward from `keyStart`, values grow backward from `dataEnd`. -/
def extractEntry (b : List Nat) (keyStart dataEnd : Nat) (e : nloc × nloc) :
    List Nat × List Nat :=
  (sliceAt b (keyStart + e.1.off) e.1.len, sliceAt b (dataEnd - e.2.off) e.2.len)

/-- Read a `btree_info_t` at byte offset `base`. -/
def readInfo (b : List Nat) (base : Nat) : btree_info :=
  ⟨⟨readLE b base 4, readLE b (base + 4) 4, readLE b (base + 8) 4, readLE b (base + 12) 4⟩,
   readLE b (base + 16) 4, readLE b (base + 20) 4, readLE b (base + 24) 8, readLE b (base + 32) 8⟩

/-- Modelled from the spec: steps 2-5 of the node decoder (§4.2) — read the
header fields and the four location descriptors, validate bounds,
non-overlap and table-of-contents capacity, build the entry table, check
the key ordering, and parse the root-only trailer when the root flag is
set.  Runs only after the checksum gate of `parse`. -/
def parseBody (cfg : BtConfig) (b : List Nat) : Except Err BtNode :=
  let flags := readLE b 32 2
  let level := readLE b 34 2
  let nkeys := readLE b 36 4
  let tspace := nlocAt b 40
  let fspace := nlocAt b 44
  let kfl := nlocAt b 48
  let vfl := nlocAt b 52
  let isRoot : Bool := decide (flags &&& BTNODE_ROOT ≠ 0)
  let fixed : Bool := decide (flags &&& BTNODE_FIXED_KV_SIZE ≠ 0)
  let infoSize := if isRoot then 40 else 0
  let dataEnd := b.length - infoSize
  if 56 + infoSize ≤ b.length then
    if locInBounds dataEnd tspace ∧ locInBounds dataEnd fspace ∧
       locInBounds dataEnd kfl ∧ locInBounds dataEnd vfl then
      if regionsDisjoint tspace fspace ∧ regionsDisjoint tspace kfl ∧
         regionsDisjoint tspace vfl ∧ regionsDisjoint fspace kfl ∧
         regionsDisjoint fspace vfl ∧ regionsDisjoint kfl vfl then
        if nkeys * tocEntrySize fixed ≤ tspace.len then
          let tocBase := 56 + tspace.off
          let keyStart := 56 + tspace.off + tspace.len
          let rawEntries := (List.range nkeys).map (readTocEntry cfg b fixed tocBase)
          if ∀ e ∈ rawEntries, entryInBounds keyStart dataEnd e then
            let entries := rawEntries.map (extractEntry b keyStart dataEnd)
            if keysOrderedB cfg (entries.map Prod.fst) then
              Except.ok ⟨flags, level, nkeys, entries,
                if isRoot then some (readInfo b (b.length - 40)) else none⟩
            else Except.error Err.MalformedNode
          else Except.error Err.MalformedNode
        else Except.error Err.MalformedNode
      else Except.error Err.MalformedNode
    else Except.error Err.MalformedNode
  else Except.error Err.MalformedNode

/-- Modelled from the spec: step 1 of the node decoder (§4.2) — recompute
the checksum over the block's bytes after the 8-byte stored checksum and
compare, failing with `ChecksumMismatch` before any other field is
interpreted. -/
def parse (cfg : BtConfig) (b : List Nat) : Except Err BtNode :=
  if readLE b 0 8 = cksum (b.drop 8) then parseBody cfg b
  else Except.error Err.ChecksumMismatch

/-! Single-byte corruption is always caught by the checksum -/

theorem getD_set_ne (b : List Nat) (i j v : Nat) (h : j ≠ i) :
    (b.set i v).getD j 0 = b.getD j 0 := by
  simp [List.getD_eq_getElem?_getD, List.getElem?_set_ne fun he => h he.symm]

theorem readLE_set_outside (b : List Nat) (v : Nat) :
    ∀ w off i, off + w ≤ i → readLE (b.set i v) off w = readLE b off w := by
  intro w
  induction w with
  | zero => intro off i h; rfl
  | succ w ih =>
    intro off i h
    simp only [readLE]
    rw [getD_set_ne b i off v (by omega), ih (off + 1) i (by omega)]

theorem weightedSum_set (p : List Nat) (v : Nat) :
    ∀ i j, j < p.length →
      weightedSum i (p.set j v) + p.getD j 0 * 2 ^ (8 * ((i + j) % 8)) =
      weightedSum i p + v * 2 ^ (8 * ((i + j) % 8)) := by
  induction p with
  | nil => intro i j h; simp at h
  | cons a t ih =>
    intro i j hj
    cases j with
    | zero =>
      rw [List.set_cons_zero]
      simp only [weightedSum, List.getD_cons_zero, Nat.add_zero]
      ring
    | succ j =>
      rw [List.set_cons_succ]
      simp only [weightedSum, List.getD_cons_succ]
      have hj' : j < t.length := by simpa using hj
      have hrec := ih (i + 1) j hj'
      have he : i + 1 + j = i + (j + 1) := by omega
      rw [he] at hrec
      rw [Nat.add_assoc, hrec, ← Nat.add_assoc]

theorem cksum_set_ne (p : List Nat) (j v : Nat) (hj : j < p.length)
    (hold : p.getD j 0 < 256) (hv : v < 256) (hne : v ≠ p.getD j 0) :
    cksum (p.set j v) ≠ cksum p := by
  intro hEq
  unfold cksum at hEq
  have hsum := weightedSum_set p v 0 j hj
  rw [Nat.zero_add] at hsum
  set A := weightedSum 0 (p.set j v) with hA
  set B := weightedSum 0 p with hB
  set e := 8 * (j % 8) with he
  have he56 : e ≤ 56 := by
    have h8 : j % 8 < 8 := Nat.mod_lt _ (by norm_num)
    omega
  have hsumZ : (A : Int) + (p.getD j 0 : Int) * 2 ^ e = (B : Int) + (v : Int) * 2 ^ e := by
    exact_mod_cast hsum
  have hmodZ : (A : Int) % 2 ^ 64 = (B : Int) % 2 ^ 64 := by
    have hc := congrArg (fun t : Nat => (t : Int)) hEq
    push_cast at hc
    exact_mod_cast hc
  have hdvd : ((2 : Int) ^ 64) ∣ (B : Int) - (A : Int) := Int.ModEq.dvd hmodZ
  have hd : (B : Int) - A = ((p.getD j 0 : Int) - v) * 2 ^ e := by
    have h1 : (B : Int) - A = (p.getD j 0 : Int) * 2 ^ e - (v : Int) * 2 ^ e := by
      linarith [hsumZ]
    rw [h1, sub_mul]
  rw [hd] at hdvd
  obtain ⟨k, hk⟩ := hdvd
  set d := (p.getD j 0 : Int) - v with hdd
  have hne' : d ≠ 0 := by
    intro h0
    apply hne
    have hvi : (v : Int) = (p.getD j 0 : Int) := by omega
    exact_mod_cast hvi
  have habs : |d| < 256 := by
    rw [abs_lt]
    omega
  have hcancel : d = 2 ^ (64 - e) * k := by
    have hpow : (2 : Int) ^ 64 = 2 ^ (64 - e) * 2 ^ e := by
      rw [← pow_add]
      congr 1
      omega
    rw [hpow] at hk
    have h2e : (2 : Int) ^ e ≠ 0 := pow_ne_zero _ (by norm_num)
    have hk' : d * 2 ^ e = (2 ^ (64 - e) * k) * 2 ^ e := by rw [hk]; ring
    exact mul_right_cancel₀ h2e hk'
  have h256 : (256 : Int) ∣ d := by
    rw [hcancel]
    have h2d : (256 : Int) ∣ 2 ^ (64 - e) := by
      have h8 : (256 : Int) = 2 ^ 8 := by norm_num
      rw [h8]
      exact pow_dvd_pow 2 (by omega)
    exact h2d.mul_right k
  have hge : (256 : Int) ≤ |d| := Int.le_of_dvd (abs_pos.mpr hne') ((dvd_abs _ _).mpr h256)
  linarith [habs, hge]

/-- C1: the node decoder compares the checksum before interpreting any
other field: any raw block whose stored checksum disagrees with the
recomputed one parses to `ChecksumMismatch` regardless of its other
contents, and corrupting any single byte of the data region of a
successfully parsed block, without updating the stored checksum, makes
`parse` return `ChecksumMismatch` — `parse` is total, so never a crash or
out-of-bounds access, and never `NotFound` or any other result. -/
theorem parse_checksum_first (cfg : BtConfig) (b : List Nat) :
    (readLE b 0 8 ≠ cksum (b.drop 8) → parse cfg b = Except.error Err.ChecksumMismatch) ∧
    (∀ n i v, parse cfg b = Except.ok n → 56 ≤ i → i < b.length →
      b.getD i 0 < 256 → v < 256 → v ≠ b.getD i 0 →
      parse cfg (b.set i v) = Except.error Err.ChecksumMismatch) := by
  constructor
  · intro h
    unfold parse
    rw [if_neg h]
  · intro n i v hok h56 hlen hold hv hne
    have hcv : readLE b 0 8 = cksum (b.drop 8) := by
      by_contra hc
      unfold parse at hok
      rw [if_neg hc] at hok
      exact Except.noConfusion hok
    have hstored : readLE (b.set i v) 0 8 = readLE b 0 8 :=
      readLE_set_outside b v 8 0 i (by omega)
    have hdrop : (b.set i v).drop 8 = (b.drop 8).set (i - 8) v := by
      rw [List.drop_set, if_neg]
      omega
    have hj : i - 8 < (b.drop 8).length := by
      rw [List.length_drop]
      omega
    have h8i : 8 + (i - 8) = i := by omega
    have holdD : (b.drop 8).getD (i - 8) 0 = b.getD i 0 := by
      rw [List.getD_eq_getElem?_getD, List.getD_eq_getElem?_getD, List.getElem?_drop, h8i]
    have hckne : cksum ((b.drop 8).set (i - 8) v) ≠ cksum (b.drop 8) :=
      cksum_set_ne _ _ _ hj (by rw [holdD]; exact hold) hv (by rw [holdD]; exact hne)
    have hcond : ¬ (readLE (b.set i v) 0 8 = cksum ((b.set i v).drop 8)) := by
      rw [hstored, hdrop, hcv]
      exact fun hcontra => hckne hcontra.symm
    unfold parse
    rw [if_neg hcond]

/-- The numeric 64-bit key comparator of a `BTREE_UNIT64_KEYS` tree,
together with an empty-tree configuration: no ghosts, no fixed sizes. -/
def cfgW : BtConfig := ⟨fun a c => (readLE a 0 8 : Int) - readLE c 0 8, false, 0, 0⟩

/-- The 52 payload bytes of a minimal well-formed leaf node: zeroed object
header fields, flags = leaf, no keys, a 4-byte free-space region, and 4
data bytes. -/
def payload1 : List Nat :=
  List.replicate 24 0 ++ [2, 0] ++ [0, 0] ++ [0, 0, 0, 0] ++
  [0, 0, 0, 0] ++ [0, 0, 4, 0] ++ [0, 0, 0, 0] ++ [0, 0, 0, 0] ++ [1, 2, 3, 4]

/-- The minimal well-formed leaf block: the little-endian bytes of
`cksum payload1` followed by `payload1`. -/
def block1 : List Nat := [3, 2, 3, 4, 0, 0, 4, 0] ++ payload1

/-- The decoded view of `block1`. -/
def node1 : BtNode := ⟨2, 0, 0, [], none⟩

/-- A 60-byte block whose stored checksum (1) disagrees with the recomputed
checksum of its all-zero payload (0). -/
def badBlock : List Nat := 1 :: List.replicate 59 0

set_option maxHeartbeats 2000000 in
/-- C1 witness: the mismatching block parses to `ChecksumMismatch`, and
corrupting data byte 58 of the well-formed `block1` from 3 to 7 makes it
parse to `ChecksumMismatch`. -/
theorem parse_checksum_first_witness :
    parse cfgW badBlock = Except.error Err.ChecksumMismatch ∧
    parse cfgW (block1.set 58 7) = Except.error Err.ChecksumMismatch :=
  ⟨(parse_checksum_first cfgW badBlock).1 (by decide),
   (parse_checksum_first cfgW block1).2 node1 58 7 rfl (by decide) (by decide)
     (by decide) (by decide) (by decide)⟩

/-! The table of contents of an accepted node is ordered -/

/-- Coherence requirements on an injected comparator: strict and weak
orderings compose transitively. -/
def TransCmp (cmp : List Nat → List Nat → Int) : Prop :=
  ∀ a c d : List Nat,
    (cmp a c < 0 → cmp c d < 0 → cmp a d < 0) ∧
    (cmp a c < 0 → cmp c d = 0 → cmp a d < 0) ∧
    (cmp a c = 0 → cmp c d < 0 → cmp a d < 0) ∧
    (cmp a c = 0 → cmp c d = 0 → cmp a d = 0)

theorem adjOrdered_trans (cfg : BtConfig) (htr : TransCmp cfg.cmp) :
    ∀ a c d, adjOrdered cfg a c → adjOrdered cfg c d → adjOrdered cfg a d := by
  intro a c d h1 h2
  obtain ⟨t1, t2, t3, t4⟩ := htr a c d
  rcases h1 with h1 | ⟨h1, hg⟩
  · rcases h2 with h2 | ⟨h2, _⟩
    · exact Or.inl (t1 h1 h2)
    · exact Or.inl (t2 h1 h2)
  · rcases h2 with h2 | ⟨h2, _⟩
    · exact Or.inl (t3 h1 h2)
    · exact Or.inr ⟨t4 h1 h2, hg⟩

theorem parse_ok_spec (cfg : BtConfig) (b : List Nat) (n : BtNode)
    (h : parse cfg b = Except.ok n) :
    n.entries.length = n.nkeys ∧ List.Chain' (adjOrdered cfg) (n.entries.map Prod.fst) := by
  simp only [parse, parseBody] at h
  split_ifs at h
  all_goals injection h with h'
  all_goals subst h'
  all_goals exact ⟨by simp, (keysOrderedB_iff cfg _).mp (by assumption)⟩

/-- C8: every node the decoder accepts has its table of contents strictly
ordered by the injected comparator: for all slots `i < j < key_count`,
`cmp (key i) (key j) < 0`, equality being possible only in a tree
configured to allow ghost entries. -/
theorem toc_strictly_ordered (cfg : BtConfig) (b : List Nat) (n : BtNode)
    (h : parse cfg b = Except.ok n) (htr : TransCmp cfg.cmp) :
    n.entries.length = n.nkeys ∧
    ∀ i j, i < j → j < n.nkeys →
      cfg.cmp (n.entries.getD i ([], [])).1 (n.entries.getD j ([], [])).1 < 0 ∨
      (cfg.cmp (n.entries.getD i ([], [])).1 (n.entries.getD j ([], [])).1 = 0 ∧
       cfg.allowGhosts = true) := by
  obtain ⟨hlen, hch⟩ := parse_ok_spec cfg b n h
  refine ⟨hlen, ?_⟩
  intro i j hij hj
  haveI : IsTrans (List Nat) (adjOrdered cfg) := ⟨adjOrdered_trans cfg htr⟩
  have hp : List.Pairwise (adjOrdered cfg) (n.entries.map Prod.fst) :=
    List.chain'_iff_pairwise.mp hch
  rw [List.pairwise_iff_getElem] at hp
  have hjl : j < (n.entries.map Prod.fst).length := by
    rw [List.length_map, hlen]
    exact hj
  have hil : i < (n.entries.map Prod.fst).length := lt_trans hij hjl
  have hadj := hp i j hil hjl hij
  have hil' : i < n.entries.length := by simpa using hil
  have hjl' : j < n.entries.length := by simpa using hjl
  rw [List.getElem_map, List.getElem_map] at hadj
  unfold adjOrdered at hadj
  rw [List.getD_eq_getElem n.entries ([], []) hil', List.getD_eq_getElem n.entries ([], []) hjl']
  exact hadj

theorem transCmp_cfgW : TransCmp cfgW.cmp := by
  intro a c d
  simp only [cfgW]
  refine ⟨?_, ?_, ?_, ?_⟩ <;> intro h1 h2 <;> omega

/-- The 82 payload bytes of a well-formed two-entry leaf of a unit64-keys
tree: keys 5 and 9, one-byte values. -/
def payload8 : List Nat :=
  List.replicate 24 0 ++ [2, 0] ++ [0, 0] ++ [2, 0, 0, 0] ++
  [0, 0, 16, 0] ++ [16, 0, 0, 0] ++ [16, 0, 0, 0] ++ [16, 0, 0, 0] ++
  [0, 0, 8, 0, 2, 0, 1, 0] ++ [8, 0, 8, 0, 1, 0, 1, 0] ++
  [5, 0, 0, 0, 0, 0, 0, 0] ++ [9, 0, 0, 0, 0, 0, 0, 0] ++ [97, 98]

/-- The two-entry leaf block: the little-endian bytes of `cksum payload8`
followed by `payload8`. -/
def block8 : List Nat := [137, 98, 32, 0, 37, 0, 2, 0] ++ payload8

/-- The decoded view of `block8`. -/
def node8 : BtNode :=
  ⟨2, 0, 2, [([5, 0, 0, 0, 0, 0, 0, 0], [97]), ([9, 0, 0, 0, 0, 0, 0, 0], [98])], none⟩

set_option maxHeartbeats 2000000 in
/-- C8 witness: in the decoded two-entry leaf, the key in slot 0 compares
strictly below the key in slot 1 under the numeric 64-bit comparator. -/
theorem toc_strictly_ordered_witness :
    cfgW.cmp (node8.entries.getD 0 ([], [])).1 (node8.entries.getD 1 ([], [])).1 < 0 ∨
    (cfgW.cmp (node8.entries.getD 0 ([], [])).1 (node8.entries.getD 1 ([], [])).1 = 0 ∧
     cfgW.allowGhosts = true) :=
  (toc_strictly_ordered cfgW block8 node8 (by decide) transCmp_cfgW).2 0 1 (by decide) (by decide)

end Apfs
